import Mathlib

/-!
Verification of the manga-to-anime pipeline core (src/pages/index.tsx):
caption segmentation, duration estimation, timeline building, progress
aggregation, orchestrator state, subtitle serialization, and caption edits.
Each definition is a shallow embedding of the corresponding TypeScript.
-/

/-- One uploaded page image (src/pages/index.tsx, `UploadedImage`);
the binary content handle is irrelevant to the verified core. -/
structure UploadedImage where
  id : String
  name : String
deriving DecidableEq, Repr

/-- OCR output for one page (src/pages/index.tsx, `OcrResult`). -/
structure OcrResult where
  imageId : String
  text : String
deriving DecidableEq, Repr

/-- One timed caption (src/pages/index.tsx, `SubtitleItem`).
`durationMs` is a JS number; all values the program stores are integers. -/
structure SubtitleItem where
  id : String
  text : String
  durationMs : Int
  pageIndex : Nat
deriving DecidableEq, Repr

/-! ## Caption Segmenter
Source (lines 59-63):
`r.text.replace(/\r/g, '').split(/\n{2,}|(?<=[.!?])\s+/).map(s => s.trim()).filter(Boolean)` -/

/-- JS regex `\s` membership for the character classes the pipeline meets. -/
def isWs (c : Char) : Bool :=
  c == ' ' || c == '\t' || c == '\n' || c == '\r' || c == '\x0b' || c == '\x0c'

/-- JS regex class `[.!?]` (sentence-terminal characters). -/
def isTerm (c : Char) : Bool :=
  c == '.' || c == '!' || c == '?'

/-- Length of the maximal leading run of newline characters. -/
def countLeadingNl : List Char → Nat
  | '\n' :: rest => countLeadingNl rest + 1
  | _ => 0

/-- Length of the maximal leading run of whitespace characters. -/
def countLeadingWs : List Char → Nat
  | [] => 0
  | c :: rest => if isWs c then countLeadingWs rest + 1 else 0

/-- Left-to-right scan implementing `split(/\n{2,}|(?<=[.!?])\s+/)`:
at each position the first alternative (a run of two or more newlines) is
tried before the second (whitespace run after a sentence terminal, the
lookbehind being tracked in `prevTerm`); each separator match is greedy and
ends the current piece.  `fuel` only bounds the recursion; any value larger
than the list length gives the exact JS split. -/
def splitScan : Nat → Bool → List Char → List Char → List (List Char)
  | 0, _, acc, _ => [acc.reverse]
  | _ + 1, _, acc, [] => [acc.reverse]
  | fuel + 1, prevTerm, acc, c :: rest =>
    if c = '\n' ∧ rest.head? = some '\n' then
      acc.reverse :: splitScan fuel false [] (rest.drop (countLeadingNl rest))
    else if prevTerm ∧ isWs c then
      acc.reverse :: splitScan fuel false [] (rest.drop (countLeadingWs rest))
    else
      splitScan fuel (isTerm c) (c :: acc) rest

/-- JS `String.prototype.split` with the segmenter's regex, over char lists. -/
def jsSplit (l : List Char) : List (List Char) :=
  splitScan (l.length + 1) false [] l

/-- JS `String.prototype.trim`: strip leading and trailing whitespace. -/
def trimChars (l : List Char) : List Char :=
  (((l.dropWhile isWs).reverse.dropWhile isWs)).reverse

/-- The Caption Segmenter (lines 59-63): strip carriage returns, split on
paragraph breaks or whitespace after a sentence terminal, trim each
piece, and drop empty pieces (`filter(Boolean)`). -/
def segmentText (t : String) : List String :=
  (((jsSplit (t.data.filter (fun c => !(c == '\r')))).map
      (fun p => String.mk (trimChars p))).filter (fun s => !(s == "")))

/-! ## Duration Estimator
Source (line 66): `Math.max(1500, Math.min(7000, Math.round(60 * len)))`. -/

/-- Duration estimate for one caption chunk; `60 * len` is an integer so
`Math.round` is the identity on it. -/
def estimateDuration (chunk : String) : Int :=
  max 1500 (min 7000 (60 * (chunk.length : Int)))

/-! ## Timeline Builder
Source (lines 57-73): a global accumulator `subs` is pushed to per chunk,
with `id` built from `subs.length` at push time (a global running index);
the fallback (lines 70-73) fires only when the whole run produced nothing. -/

/-- Units produced for one page's chunks; `start` is the value of
`subs.length` when the first chunk of this page is pushed. -/
def unitsForPage (imageId : String) (pageIndex : Nat) (start : Nat) :
    List String → List SubtitleItem
  | [] => []
  | chunk :: rest =>
    { id := imageId ++ "-" ++ toString start, text := chunk,
      durationMs := estimateDuration chunk, pageIndex := pageIndex } ::
      unitsForPage imageId pageIndex (start + 1) rest

/-- The `results.forEach` loop (lines 58-69): pages in order, the id counter
carried across pages. -/
def buildSegmentedAux (pageIndex start : Nat) : List OcrResult → List SubtitleItem
  | [] => []
  | r :: rs =>
    let us := unitsForPage r.imageId pageIndex start (segmentText r.text)
    us ++ buildSegmentedAux (pageIndex + 1) (start + us.length) rs

/-- All caption units built from OCR results (before the fallback check). -/
def buildSegmented (results : List OcrResult) : List SubtitleItem :=
  buildSegmentedAux 0 0 results

/-- Fallback units (lines 70-73): one placeholder per page, in page order. -/
def fallbackUnits (idx : Nat) : List UploadedImage → List SubtitleItem
  | [] => []
  | img :: rest =>
    { id := img.id ++ "-fallback", text := "Page " ++ toString (idx + 1),
      durationMs := 2000, pageIndex := idx } :: fallbackUnits (idx + 1) rest

/-- The Timeline Builder: segmented units, or the per-page fallback when the
entire run yielded zero captions. -/
def buildTimeline (images : List UploadedImage) (results : List OcrResult) :
    List SubtitleItem :=
  let subs := buildSegmented results
  if subs = [] then fallbackUnits 0 images else subs

/-! ## Progress Aggregator
Source: line 51 `setAgentStep(Math.round(progress * 25))`,
line 101 `setAgentStep(70 + Math.round(30 * p))`, and the fixed checkpoints
at lines 46, 75, 80, 91, 106. -/

/-- JS `Math.round` on a nonnegative rational: floor of the value plus a half
(JS rounds halves up). -/
def jsRound (q : ℚ) : Int := ⌊q + 1 / 2⌋

/-- Percent shown for an OCR progress fraction (line 51). -/
def recognizingPercent (f : ℚ) : Int := jsRound (f * 25)

/-- Percent shown for a render progress fraction (line 101). -/
def renderingPercent (f : ℚ) : Int := 70 + jsRound (30 * f)

/-- Chronological list of every `setAgentStep` argument during `runAgent`
(lines 46, 51, 75, 80): the initial 0, one value per OCR progress report,
then the fixed checkpoints 50 and 65 when the OCR call resolved. -/
def runAgentSteps (ocrProgress : List ℚ) (ocrOk : Bool) : List Int :=
  0 :: (ocrProgress.map recognizingPercent ++ if ocrOk then [50, 65] else [])

/-- Chronological list of every `setAgentStep` argument during `renderVideo`
(lines 91, 101, 106): the initial 70, one value per render progress report,
then 100 when the render call resolved. -/
def renderVideoSteps (renderProgress : List ℚ) (renderOk : Bool) : List Int :=
  70 :: (renderProgress.map renderingPercent ++ if renderOk then [100] else [])

/-! ## Pipeline Orchestrator state
The React state hooks of the component (lines 14-23), with the collaborator
calls (`recognizeOcrForImages`, `renderAnimeToVideo`) abstracted as an
`Except` outcome plus the list of progress fractions reported before the
outcome.  A promise rejection aborts the rest of the async function, so on
`Except.error` no further state mutation happens and the rejection is
returned to the caller (`some e` in the second component). -/

structure PipelineState where
  isProcessing : Bool
  ocrResults : List OcrResult
  subtitles : List SubtitleItem
  agentStep : Int
  agentLabel : String
  videoUrl : Option String
deriving DecidableEq, Repr

/-- Initial hook values (lines 14-20). -/
def initialState : PipelineState :=
  { isProcessing := false, ocrResults := [], subtitles := [],
    agentStep := 0, agentLabel := "Idle", videoUrl := none }

/-- The `runAgent` callback (lines 43-85), as a state transformer returning the new state
and the propagated rejection, if any. -/
def runAgentModel (images : List UploadedImage) (ocrProgress : List ℚ)
    (ocrOutcome : Except Unit (List OcrResult)) (st : PipelineState) :
    PipelineState × Option Unit :=
  if images.length = 0 then (st, none)
  else
    let st1 := { st with isProcessing := true, agentStep := 0,
                         agentLabel := "Analyzing pages with OCR" }
    let st2 := ocrProgress.foldl
      (fun s p => { s with agentStep := recognizingPercent p }) st1
    match ocrOutcome with
    | Except.error e => (st2, some e)
    | Except.ok results =>
      let st3 := { st2 with ocrResults := results,
                            agentLabel := "Building screenplay" }
      let st4 := { st3 with subtitles := buildTimeline images results,
                            agentStep := 50 }
      let st5 := { st4 with agentLabel := "Planning camera motions" }
      let st6 := { st5 with agentStep := 65 }
      let st7 := { st6 with agentLabel := "Ready to render",
                            isProcessing := false }
      (st7, none)

/-- The `renderVideo` callback (lines 87-107), same conventions as `runAgentModel`. -/
def renderVideoModel (images : List UploadedImage) (renderProgress : List ℚ)
    (renderOutcome : Except Unit String) (st : PipelineState) :
    PipelineState × Option Unit :=
  if images.length = 0 ∨ st.subtitles.length = 0 then (st, none)
  else
    let st1 := { st with isProcessing := true,
                         agentLabel := "Rendering animation to video",
                         agentStep := 70 }
    let st2 := renderProgress.foldl
      (fun s p => { s with agentStep := renderingPercent p }) st1
    match renderOutcome with
    | Except.error e => (st2, some e)
    | Except.ok url =>
      ({ st2 with videoUrl := some url, isProcessing := false,
                  agentLabel := "Completed", agentStep := 100 }, none)

/-! ## Subtitle Serializer
Source `exportSrt` (lines 109-132). -/

/-- JS `String.prototype.padStart(w, '0')`. -/
def padStart0 (s : String) (w : Nat) : String :=
  String.mk (List.replicate (w - s.data.length) '0' ++ s.data)

/-- The local `pad` helper (line 119) applied to a number. -/
def padNum (n : Int) (w : Nat) : String := padStart0 (toString n) w

/-- The local `fmt` helper (lines 114-121).  `Math.floor` of a quotient of
integers is `Int.fdiv`; the JS `%` remainder is `Int.tmod`. -/
def fmtMs (ms : Int) : String :=
  let h := ms.fdiv 3600000
  let m := (ms.tmod 3600000).fdiv 60000
  let sec := (ms.tmod 60000).fdiv 1000
  let cs := ms.tmod 1000
  padNum h 2 ++ ":" ++ padNum m 2 ++ ":" ++ padNum sec 2 ++ "," ++ padNum cs 3

/-- The `subtitles.forEach` loop of `exportSrt` (lines 112-126): `t` is the
running cumulative time, `idx` the 0-based position. -/
def srtLines (t : Int) (idx : Nat) : List SubtitleItem → List String
  | [] => []
  | s :: rest =>
    toString (idx + 1) ::
    (fmtMs t ++ " --> " ++ fmtMs (t + s.durationMs)) ::
    s.text ::
    "" ::
    srtLines (t + s.durationMs) (idx + 1) rest

/-- The line join `lines.join` with a newline separator (line 127). -/
def joinNL : List String → String
  | [] => ""
  | [l] => l
  | l :: rest => l ++ "\n" ++ joinNL rest

/-- The serialized SRT document (lines 109-127); the download plumbing is
outside the verified core. -/
def exportSrt (subs : List SubtitleItem) : String := joinNL (srtLines 0 0 subs)

/-- Sum of the durations of the first `i` captions: the running cumulative
start time of caption `i`. -/
def cumStart (subs : List SubtitleItem) (i : Nat) : Int :=
  ((subs.take i).map (fun s => s.durationMs)).sum

/-! ## SRT parser, for the round-trip property.
Modelled from the spec: §4.6 requires the serialized document to be
re-parsable by a standard subtitle reader into (start, end, text) triples;
the repository contains no such reader, so this is the standard one. -/

/-- Split a char list on a separator character (keeping empty pieces). -/
def splitOnChar (sep : Char) : List Char → List (List Char)
  | [] => [[]]
  | c :: rest =>
    if c = sep then [] :: splitOnChar sep rest
    else
      match splitOnChar sep rest with
      | [] => [[c]]
      | l :: ls => (c :: l) :: ls

/-- Group lines into runs separated by blank lines (keeping empty runs). -/
def splitBlocks : List (List Char) → List (List (List Char))
  | [] => [[]]
  | l :: rest =>
    if l = [] then [] :: splitBlocks rest
    else
      match splitBlocks rest with
      | [] => [[l]]
      | b :: bs => (l :: b) :: bs

/-- Modelled from the spec: the value of a decimal digit. -/
def digitVal (c : Char) : Option Nat :=
  if '0' ≤ c ∧ c ≤ '9' then some (c.toNat - '0'.toNat) else none

/-- Modelled from the spec: a nonempty all-digit field as a natural. -/
def parseNatChars (l : List Char) : Option Nat :=
  if l = [] then none
  else
    l.foldl
      (fun acc c =>
        match acc, digitVal c with
        | some n, some d => some (n * 10 + d)
        | _, _ => none)
      (some 0)

/-- Modelled from the spec: read `HH:MM:SS,mmm` as milliseconds. -/
def parseTimestamp (l : List Char) : Option Int :=
  match splitOnChar ':' l with
  | [hh, mm, rest] =>
    match splitOnChar ',' rest with
    | [ss, mmm] =>
      match parseNatChars hh, parseNatChars mm, parseNatChars ss, parseNatChars mmm with
      | some h, some m, some s, some ms =>
        some (((h * 3600 + m * 60 + s) * 1000 + ms : Nat) : Int)
      | _, _, _, _ => none
    | _ => none
  | _ => none

/-- Modelled from the spec: split a timestamp line at the arrow token. -/
def splitArrow : List Char → Option (List Char × List Char)
  | [] => none
  | ' ' :: '-' :: '-' :: '>' :: ' ' :: rest => some ([], rest)
  | c :: rest =>
    match splitArrow rest with
    | some (a, b) => some (c :: a, b)
    | none => none

/-- Rejoin the text lines of one block with newlines. -/
def joinNlChars : List (List Char) → List Char
  | [] => []
  | [l] => l
  | l :: rest => l ++ '\n' :: joinNlChars rest

/-- Modelled from the spec: one SRT block — sequence-number line, timestamp
line, then the caption text — read as an (start, end, text) triple. -/
def parseBlock (b : List (List Char)) : Option (Int × Int × String) :=
  match b with
  | _ :: timeLine :: textLines =>
    match splitArrow timeLine with
    | some (sPart, ePart) =>
      match parseTimestamp sPart, parseTimestamp ePart with
      | some s, some e => some (s, e, String.mk (joinNlChars textLines))
      | _, _ => none
    | none => none
  | _ => none

/-- Modelled from the spec: a standard SRT reader — blocks separated by blank
lines, each yielding one (start, end, text) triple. -/
def parseSrt (doc : String) : Option (List (Int × Int × String)) :=
  ((splitBlocks (splitOnChar '\n' doc.data)).filter (fun b => !(b == []))).mapM
    parseBlock

/-! ## Caption edits
Source (lines 134-139 and the duration input handler at line 203). -/

/-- The `updateSubtitleText` callback (lines 134-136). -/
def updateSubtitleText (sid : String) (text : String)
    (subs : List SubtitleItem) : List SubtitleItem :=
  subs.map (fun s => if s.id = sid then { s with text := text } else s)

/-- The `updateSubtitleDuration` callback (lines 137-139). -/
def updateSubtitleDuration (sid : String) (durationMs : Int)
    (subs : List SubtitleItem) : List SubtitleItem :=
  subs.map (fun s => if s.id = sid then { s with durationMs := durationMs } else s)

/-- The expression `parseInt(v) || 0` at line 203: a non-numeric field (`parseInt` gives
`NaN`, modelled as `none`) is treated as 0. -/
def parseIntOr0 : Option Int → Int
  | none => 0
  | some n => n

/-- The duration stored by the input handler at line 203:
`Math.max(500, parseInt(e.target.value) || 0)`. -/
def durationEditValue (raw : Option Int) : Int :=
  max 500 (parseIntOr0 raw)

/-- The complete duration-edit path (line 203). -/
def applyDurationEdit (sid : String) (raw : Option Int)
    (subs : List SubtitleItem) : List SubtitleItem :=
  updateSubtitleDuration sid (durationEditValue raw) subs

/-! ## Helper lemmas -/

lemma runAgentSteps_true (ps : List ℚ) :
    runAgentSteps ps true = 0 :: (ps.map recognizingPercent ++ [50, 65]) := rfl

lemma renderVideoSteps_true (qs : List ℚ) :
    renderVideoSteps qs true = 70 :: (qs.map renderingPercent ++ [100]) := rfl

lemma recognizingPercent_nonneg {f : ℚ} (h0 : 0 ≤ f) : 0 ≤ recognizingPercent f := by
  rw [recognizingPercent, jsRound]
  exact Int.le_floor.mpr (by push_cast; linarith)

lemma recognizingPercent_le {f : ℚ} (h1 : f ≤ 1) : recognizingPercent f ≤ 25 := by
  have h : recognizingPercent f < 26 := by
    rw [recognizingPercent, jsRound]
    exact Int.floor_lt.mpr (by push_cast; linarith)
  omega

lemma recognizingPercent_mono {p q : ℚ} (h : p ≤ q) :
    recognizingPercent p ≤ recognizingPercent q :=
  Int.floor_le_floor (by linarith)

lemma renderingPercent_lb {f : ℚ} (h0 : 0 ≤ f) : 70 ≤ renderingPercent f := by
  have h : 0 ≤ jsRound (30 * f) := by
    rw [jsRound]; exact Int.le_floor.mpr (by push_cast; linarith)
  rw [renderingPercent]; omega

lemma renderingPercent_ub {f : ℚ} (h1 : f ≤ 1) : renderingPercent f ≤ 100 := by
  have h : jsRound (30 * f) < 31 := by
    rw [jsRound]; exact Int.floor_lt.mpr (by push_cast; linarith)
  rw [renderingPercent]; omega

lemma renderingPercent_mono {p q : ℚ} (h : p ≤ q) :
    renderingPercent p ≤ renderingPercent q := by
  have : jsRound (30 * p) ≤ jsRound (30 * q) := Int.floor_le_floor (by linarith)
  rw [renderingPercent, renderingPercent]; omega

lemma mem_unitsForPage_duration :
    ∀ (cs : List String) (iid : String) (p s : Nat) (u : SubtitleItem),
      u ∈ unitsForPage iid p s cs → 1500 ≤ u.durationMs := by
  intro cs
  induction cs with
  | nil => intro iid p s u h; simp [unitsForPage] at h
  | cons c cs ih =>
    intro iid p s u h
    rw [unitsForPage, List.mem_cons] at h
    rcases h with h | h
    · subst h; exact le_max_left _ _
    · exact ih iid p (s + 1) u h

lemma mem_buildSegmentedAux_duration :
    ∀ (rs : List OcrResult) (p s : Nat) (u : SubtitleItem),
      u ∈ buildSegmentedAux p s rs → 1500 ≤ u.durationMs := by
  intro rs
  induction rs with
  | nil => intro p s u h; simp [buildSegmentedAux] at h
  | cons r rs ih =>
    intro p s u h
    rw [buildSegmentedAux, List.mem_append] at h
    rcases h with h | h
    · exact mem_unitsForPage_duration _ _ _ _ _ h
    · exact ih _ _ u h

lemma mem_fallbackUnits_duration :
    ∀ (imgs : List UploadedImage) (idx : Nat) (u : SubtitleItem),
      u ∈ fallbackUnits idx imgs → u.durationMs = 2000 := by
  intro imgs
  induction imgs with
  | nil => intro idx u h; simp [fallbackUnits] at h
  | cons img imgs ih =>
    intro idx u h
    rw [fallbackUnits, List.mem_cons] at h
    rcases h with h | h
    · subst h; rfl
    · exact ih _ u h

lemma map_fix_of_forall {α : Type} (f : α → α) :
    ∀ l : List α, (∀ x ∈ l, f x = x) → l.map f = l := by
  intro l
  induction l with
  | nil => intro _; rfl
  | cons a l ih =>
    intro h
    rw [List.map_cons, h a (List.mem_cons_self a l),
      ih fun x hx => h x (List.mem_cons_of_mem a hx)]

/-! ## Claim theorems -/

/-- Claim C1 (code_bug): when the OCR call inside `runAgent` or the Render
call inside `renderVideo` rejects, the rejection propagates to the caller and
the stage label, results, captions and video handle stay as they were, but —
contrary to the claim — `isProcessing` remains `true` after the rejection is
observed: `setIsProcessing(false)` sits on the success path only, so the UI
is left permanently busy. -/
theorem runAgent_rejection_leaves_busy :
    (runAgentModel [⟨"p1", "a.png"⟩] [] (Except.error ()) initialState).2 = some () ∧
    (runAgentModel [⟨"p1", "a.png"⟩] [] (Except.error ()) initialState).1 =
      { initialState with isProcessing := true,
                          agentLabel := "Analyzing pages with OCR" } ∧
    (runAgentModel [⟨"p1", "a.png"⟩] [] (Except.error ()) initialState).1.isProcessing
      = true ∧
    (renderVideoModel [⟨"p1", "a.png"⟩] [] (Except.error ())
        { initialState with subtitles := [⟨"p1-0", "Hi.", 1500, 0⟩] }).2 = some () ∧
    (renderVideoModel [⟨"p1", "a.png"⟩] [] (Except.error ())
        { initialState with subtitles := [⟨"p1-0", "Hi.", 1500, 0⟩] }).1.isProcessing
      = true := by
  decide

/-- Claim C2 (counterexample): the displayed percent is not monotone for
every report sequence — the Recognizing fractions 0.8 then 0.4 produce the
percent trace [0, 20, 10, 50, 65], which decreases at the third entry, since
`setAgentStep(Math.round(progress * 25))` applies each report unguarded. -/
theorem percent_regresses_on_out_of_order_reports :
    runAgentSteps [4 / 5, 2 / 5] true = [0, 20, 10, 50, 65] ∧
    ¬ List.Chain' (· ≤ ·) (runAgentSteps [4 / 5, 2 / 5] true) := by
  have h : runAgentSteps [4 / 5, 2 / 5] true = [0, 20, 10, 50, 65] := by
    norm_num [runAgentSteps, recognizingPercent, jsRound]
  refine ⟨h, ?_⟩
  rw [h]
  intro hc
  have h2 := (List.chain'_cons.mp (List.chain'_cons.mp hc).2).1
  omega

/-- Claim C2 (amended): within one run the displayed percent is monotone
non-decreasing and bounded to [0, 100] for every stage-fraction report
sequence that is itself non-decreasing and within [0, 1] (as the
collaborator contract guarantees); the code applies reports unguarded, so
only such sequences are covered. -/
theorem percent_monotone_of_monotone_reports
    (ps qs : List ℚ)
    (hps : List.Chain' (· ≤ ·) ps) (hps01 : ∀ p ∈ ps, 0 ≤ p ∧ p ≤ 1)
    (hqs : List.Chain' (· ≤ ·) qs) (hqs01 : ∀ q ∈ qs, 0 ≤ q ∧ q ≤ 1) :
    List.Chain' (· ≤ ·) (runAgentSteps ps true ++ renderVideoSteps qs true) ∧
    ∀ x ∈ runAgentSteps ps true ++ renderVideoSteps qs true, 0 ≤ x ∧ x ≤ 100 := by
  have hpsElem : ∀ x ∈ ps.map recognizingPercent, 0 ≤ x ∧ x ≤ 25 := by
    intro x hx
    rcases List.mem_map.mp hx with ⟨p, hp, rfl⟩
    exact ⟨recognizingPercent_nonneg (hps01 p hp).1, recognizingPercent_le (hps01 p hp).2⟩
  have hqsElem : ∀ x ∈ qs.map renderingPercent, 70 ≤ x ∧ x ≤ 100 := by
    intro x hx
    rcases List.mem_map.mp hx with ⟨q, hq, rfl⟩
    exact ⟨renderingPercent_lb (hqs01 q hq).1, renderingPercent_ub (hqs01 q hq).2⟩
  constructor
  · rw [runAgentSteps_true, renderVideoSteps_true, List.chain'_append]
    refine ⟨?_, ?_, ?_⟩
    · refine List.chain'_cons'.mpr ⟨?_, ?_⟩
      · intro y hy
        rcases List.mem_append.mp (List.mem_of_mem_head? hy) with hy' | hy'
        · exact (hpsElem y hy').1
        · simp only [List.mem_cons, List.not_mem_nil, or_false] at hy'
          rcases hy' with rfl | rfl <;> norm_num
      · rw [List.chain'_append]
        refine ⟨(List.chain'_map recognizingPercent).mpr
            (hps.imp fun a b h => recognizingPercent_mono h),
          by norm_num [List.chain'_cons, List.chain'_singleton], ?_⟩
        intro x hx y hy
        have hx' := (hpsElem x (List.mem_of_mem_getLast? hx)).2
        simp only [List.head?_cons, Option.mem_def, Option.some.injEq] at hy
        omega
    · refine List.chain'_cons'.mpr ⟨?_, ?_⟩
      · intro y hy
        rcases List.mem_append.mp (List.mem_of_mem_head? hy) with hy' | hy'
        · exact (hqsElem y hy').1
        · simp only [List.mem_singleton] at hy'
          subst hy'; norm_num
      · rw [List.chain'_append]
        refine ⟨(List.chain'_map renderingPercent).mpr
            (hqs.imp fun a b h => renderingPercent_mono h),
          List.chain'_singleton _, ?_⟩
        intro x hx y hy
        have hx' := (hqsElem x (List.mem_of_mem_getLast? hx)).2
        simp only [List.head?_cons, Option.mem_def, Option.some.injEq] at hy
        omega
    · intro x hx y hy
      simp only [List.head?_cons, Option.mem_def, Option.some.injEq] at hy
      have hx' : x ∈ 0 :: (ps.map recognizingPercent ++ [50, 65]) :=
        List.mem_of_mem_getLast? hx
      rcases List.mem_cons.mp hx' with rfl | hx''
      · omega
      rcases List.mem_append.mp hx'' with h | h
      · have := (hpsElem x h).2; omega
      · simp only [List.mem_cons, List.not_mem_nil, or_false] at h
        rcases h with rfl | rfl <;> omega
  · intro x hx
    rw [runAgentSteps_true, renderVideoSteps_true] at hx
    rcases List.mem_append.mp hx with h | h
    · rcases List.mem_cons.mp h with rfl | h'
      · omega
      rcases List.mem_append.mp h' with h'' | h''
      · have := hpsElem x h''; omega
      · simp only [List.mem_cons, List.not_mem_nil, or_false] at h''
        rcases h'' with rfl | rfl <;> omega
    · rcases List.mem_cons.mp h with rfl | h'
      · omega
      rcases List.mem_append.mp h' with h'' | h''
      · have := hqsElem x h''; omega
      · simp only [List.mem_singleton] at h''
        subst h''; omega

/-- Witness for C2's amended theorem at the empty report sequences. -/
theorem percent_monotone_witness :
    List.Chain' (· ≤ ·) (runAgentSteps [] true ++ renderVideoSteps [] true) :=
  (percent_monotone_of_monotone_reports [] [] List.chain'_nil (by simp)
    List.chain'_nil (by simp)).1

/-- Claim C7: the Duration Estimator returns `round(60 × characterCount)`
clamped to [1500, 7000]; the result always lies in [1500, 7000] and is
monotone non-decreasing in the character count. -/
theorem estimator_bounds_monotone :
    (∀ s : String, estimateDuration s = max 1500 (min 7000 (60 * (s.length : Int)))) ∧
    (∀ s : String, 1500 ≤ estimateDuration s ∧ estimateDuration s ≤ 7000) ∧
    (∀ s₁ s₂ : String, s₁.length ≤ s₂.length →
      estimateDuration s₁ ≤ estimateDuration s₂) := by
  refine ⟨fun s => rfl,
    fun s => ⟨le_max_left _ _, max_le (by norm_num) (min_le_left _ _)⟩, ?_⟩
  intro s₁ s₂ h
  have h60 : (60 : Int) * s₁.length ≤ 60 * s₂.length := by
    have : (s₁.length : Int) ≤ s₂.length := Int.ofNat_le.mpr h
    linarith
  exact max_le_max le_rfl (min_le_min le_rfl h60)

/-- Witness for C7 at two concrete strings. -/
theorem estimator_bounds_monotone_witness :
    estimateDuration "a" ≤ estimateDuration "ab" :=
  estimator_bounds_monotone.2.2 "a" "ab" (by decide)

/-- Claim C8: Recognizing maps fraction f to round(25f) — so [0, 0.4, 1.0]
map to [0, 10, 25]; BuildingTimeline and PlanningMotion are the fixed
checkpoints 50 and 65, independent of any fraction; Rendering maps f to
70 + round(30f) — so 0.5 maps to 85 — and the trace ends at 100 on
completion. -/
theorem progress_mapping_values :
    recognizingPercent 0 = 0 ∧ recognizingPercent (2 / 5) = 10 ∧
    recognizingPercent 1 = 25 ∧ renderingPercent (1 / 2) = 85 ∧
    (∀ ps : List ℚ, runAgentSteps ps true =
      0 :: (ps.map recognizingPercent ++ [50, 65])) ∧
    (∀ qs : List ℚ, renderVideoSteps qs true =
      70 :: (qs.map renderingPercent ++ [100])) ∧
    (∀ qs : List ℚ, (renderVideoSteps qs true).getLast? = some 100) := by
  refine ⟨by norm_num [recognizingPercent, jsRound],
    by norm_num [recognizingPercent, jsRound],
    by norm_num [recognizingPercent, jsRound],
    by norm_num [renderingPercent, jsRound],
    fun ps => rfl, fun qs => rfl, fun qs => ?_⟩
  have h : renderVideoSteps qs true = (70 :: qs.map renderingPercent) ++ [100] := by
    rw [renderVideoSteps_true, List.cons_append]
  rw [h, List.getLast?_concat]

/-- Claim C9: `durationMs ≥ 500` holds for every caption at creation
(segmented units are clamped to at least 1500, fallback units are 2000) and
is preserved by the duration-edit path, which treats a non-numeric value as
0 and clamps through `max(500, value)` — so editing to -50 or to a
non-numeric value stores exactly 500. -/
theorem duration_floor_invariant :
    (∀ images results u, u ∈ buildTimeline images results → 500 ≤ u.durationMs) ∧
    (∀ sid raw subs, (∀ u ∈ subs, 500 ≤ u.durationMs) →
      ∀ u ∈ applyDurationEdit sid raw subs, 500 ≤ u.durationMs) ∧
    durationEditValue (some (-50)) = 500 ∧
    durationEditValue none = 500 ∧
    (∀ raw, 500 ≤ durationEditValue raw) := by
  refine ⟨?_, ?_, by decide, by decide, fun raw => le_max_left _ _⟩
  · intro images results u hu
    rw [buildTimeline] at hu
    by_cases h : buildSegmented results = []
    · rw [if_pos h] at hu
      rw [mem_fallbackUnits_duration images 0 u hu]
      norm_num
    · rw [if_neg h] at hu
      have := mem_buildSegmentedAux_duration results 0 0 u hu
      omega
  · intro sid raw subs hsubs u hu
    rcases List.mem_map.mp hu with ⟨v, hv, rfl⟩
    by_cases h : v.id = sid
    · rw [if_pos h]
      exact le_max_left _ _
    · rw [if_neg h]
      exact hsubs v hv

/-- Witness for C9's edit branch at a concrete list and edit. -/
theorem duration_floor_invariant_witness :
    (500 : Int) ≤
      ({ id := "a", text := "x", durationMs := 500, pageIndex := 0 } :
        SubtitleItem).durationMs :=
  duration_floor_invariant.2.1 "a" (some (-50)) [⟨"a", "x", 600, 0⟩]
    (by decide) _ (by decide)

/-- Claim C10: `updateSubtitleText` and `updateSubtitleDuration` preserve
list length and order, leave every unit with a different id untouched,
change only the named field of a matching unit, and are the identity when no
unit carries the given id. -/
theorem update_frame_effects (subs : List SubtitleItem) (sid : String)
    (v : String) (d : Int) :
    (updateSubtitleText sid v subs).length = subs.length ∧
    (updateSubtitleDuration sid d subs).length = subs.length ∧
    (∀ i, ∀ h : i < subs.length,
      ((subs.get ⟨i, h⟩).id ≠ sid →
        (updateSubtitleText sid v subs).get? i = some (subs.get ⟨i, h⟩) ∧
        (updateSubtitleDuration sid d subs).get? i = some (subs.get ⟨i, h⟩)) ∧
      ((subs.get ⟨i, h⟩).id = sid →
        (updateSubtitleText sid v subs).get? i =
          some { subs.get ⟨i, h⟩ with text := v } ∧
        (updateSubtitleDuration sid d subs).get? i =
          some { subs.get ⟨i, h⟩ with durationMs := d })) ∧
    ((∀ u ∈ subs, u.id ≠ sid) →
      updateSubtitleText sid v subs = subs ∧
      updateSubtitleDuration sid d subs = subs) := by
  refine ⟨List.length_map _ _, List.length_map _ _, ?_, ?_⟩
  · intro i h
    constructor
    · intro hne
      rw [updateSubtitleText, updateSubtitleDuration, List.get?_map, List.get?_map,
        List.get?_eq_get h]
      simp only [Option.map_some']
      rw [if_neg hne, if_neg hne]
      exact ⟨rfl, rfl⟩
    · intro heq
      rw [updateSubtitleText, updateSubtitleDuration, List.get?_map, List.get?_map,
        List.get?_eq_get h]
      simp only [Option.map_some']
      rw [if_pos heq, if_pos heq]
      exact ⟨rfl, rfl⟩
  · intro hall
    constructor
    · exact map_fix_of_forall _ subs fun x hx => if_neg (hall x hx)
    · exact map_fix_of_forall _ subs fun x hx => if_neg (hall x hx)

/-- Witness for C10 at a concrete list: a non-matching id leaves the unit
unchanged, and a list without the id is returned unchanged. -/
theorem update_frame_effects_witness :
    (updateSubtitleText "b" "Z" [⟨"a", "x", 600, 0⟩]).get? 0 =
      some (⟨"a", "x", 600, 0⟩ : SubtitleItem) := by
  have h := (update_frame_effects [⟨"a", "x", 600, 0⟩] "b" "Z" 600).2.2.1 0
    (by decide)
  exact (h.1 (by decide)).1

lemma unitsForPage_length (cs : List String) :
    ∀ (iid : String) (p s : Nat), (unitsForPage iid p s cs).length = cs.length := by
  induction cs with
  | nil => intro iid p s; rfl
  | cons c cs ih =>
    intro iid p s
    rw [unitsForPage, List.length_cons, List.length_cons, ih]

lemma unitsForPage_get? (cs : List String) :
    ∀ (iid : String) (p s k : Nat) (hk : k < cs.length),
      (unitsForPage iid p s cs).get? k =
        some { id := iid ++ "-" ++ toString (s + k), text := cs.get ⟨k, hk⟩,
               durationMs := estimateDuration (cs.get ⟨k, hk⟩), pageIndex := p } := by
  induction cs with
  | nil => intro iid p s k hk; exact absurd hk (by simp)
  | cons c cs ih =>
    intro iid p s k hk
    match k with
    | 0 => rw [unitsForPage]; rfl
    | k + 1 =>
      rw [unitsForPage, List.get?_cons_succ,
        ih iid p (s + 1) k (Nat.lt_of_succ_lt_succ hk)]
      have harith : s + 1 + k = s + (k + 1) := by omega
      rw [harith]
      rfl

lemma buildSegmentedAux_cons (r : OcrResult) (rs : List OcrResult) (p s : Nat) :
    buildSegmentedAux p s (r :: rs) =
      unitsForPage r.imageId p s (segmentText r.text) ++
        buildSegmentedAux (p + 1)
          (s + (unitsForPage r.imageId p s (segmentText r.text)).length) rs := rfl

lemma buildSegmentedAux_get? (rs : List OcrResult) :
    ∀ (p s i : Nat), i < (buildSegmentedAux p s rs).length →
      ∃ j, ∃ hj : j < rs.length, ∃ k,
        ∃ hk : k < (segmentText ((rs.get ⟨j, hj⟩).text)).length,
        (buildSegmentedAux p s rs).get? i =
          some { id := (rs.get ⟨j, hj⟩).imageId ++ "-" ++ toString (s + i),
                 text := (segmentText ((rs.get ⟨j, hj⟩).text)).get ⟨k, hk⟩,
                 durationMs :=
                   estimateDuration ((segmentText ((rs.get ⟨j, hj⟩).text)).get ⟨k, hk⟩),
                 pageIndex := p + j } := by
  induction rs with
  | nil => intro p s i hi; exact absurd hi (by simp [buildSegmentedAux])
  | cons r rs ih =>
    intro p s i hi
    rw [buildSegmentedAux_cons] at hi ⊢
    rw [List.length_append] at hi
    by_cases hcase : i < (unitsForPage r.imageId p s (segmentText r.text)).length
    · have hk : i < (segmentText r.text).length := by
        rw [unitsForPage_length] at hcase; exact hcase
      refine ⟨0, Nat.succ_pos _, i, hk, ?_⟩
      rw [List.get?_append hcase, unitsForPage_get? _ _ _ _ _ hk]
      rfl
    · push_neg at hcase
      have hi' : i - (unitsForPage r.imageId p s (segmentText r.text)).length <
          (buildSegmentedAux (p + 1)
            (s + (unitsForPage r.imageId p s (segmentText r.text)).length) rs).length := by
        omega
      obtain ⟨j, hj, k, hk, heq⟩ := ih (p + 1)
        (s + (unitsForPage r.imageId p s (segmentText r.text)).length)
        (i - (unitsForPage r.imageId p s (segmentText r.text)).length) hi'
      refine ⟨j + 1, Nat.succ_lt_succ hj, k, hk, ?_⟩
      rw [List.get?_append_right hcase, heq]
      have harith : s + (unitsForPage r.imageId p s (segmentText r.text)).length +
          (i - (unitsForPage r.imageId p s (segmentText r.text)).length) = s + i := by
        omega
      have harith2 : p + 1 + j = p + (j + 1) := by omega
      rw [harith, harith2]
      rfl

lemma buildSegmentedAux_nil_of_all_empty (rs : List OcrResult) :
    ∀ (p s : Nat), (∀ r ∈ rs, segmentText r.text = []) →
      buildSegmentedAux p s rs = [] := by
  induction rs with
  | nil => intro p s _; rfl
  | cons r rs ih =>
    intro p s h
    rw [buildSegmentedAux_cons, h r (List.mem_cons_self r rs), unitsForPage]
    rw [List.nil_append, List.length_nil]
    exact ih (p + 1) (s + 0) fun x hx => h x (List.mem_cons_of_mem r hx)

lemma fallbackUnits_length (imgs : List UploadedImage) :
    ∀ idx : Nat, (fallbackUnits idx imgs).length = imgs.length := by
  induction imgs with
  | nil => intro idx; rfl
  | cons img imgs ih =>
    intro idx
    rw [fallbackUnits, List.length_cons, List.length_cons, ih]

lemma fallbackUnits_get? (imgs : List UploadedImage) :
    ∀ (idx i : Nat) (h : i < imgs.length),
      (fallbackUnits idx imgs).get? i =
        some { id := (imgs.get ⟨i, h⟩).id ++ "-fallback",
               text := "Page " ++ toString (idx + i + 1),
               durationMs := 2000, pageIndex := idx + i } := by
  induction imgs with
  | nil => intro idx i h; exact absurd h (by simp)
  | cons img imgs ih =>
    intro idx i h
    match i with
    | 0 => rw [fallbackUnits]; rfl
    | i + 1 =>
      rw [fallbackUnits, List.get?_cons_succ, ih (idx + 1) i (Nat.lt_of_succ_lt_succ h)]
      have h1 : idx + 1 + i = idx + (i + 1) := by omega
      rw [h1]
      rfl

/-- Claim C3 (counterexample): with two pages each yielding one caption, the
second page's first caption — within-page index 0 — gets id `p2-1`, because
the source builds ids from `subs.length`, the running index across the whole
run, not a per-page index. -/
theorem caption_id_not_per_page_indexed :
    buildSegmented [⟨"p1", "Hi."⟩, ⟨"p2", "Yo."⟩] =
      [⟨"p1-0", "Hi.", 1500, 0⟩, ⟨"p2-1", "Yo.", 1500, 1⟩] ∧
    ((buildSegmented [⟨"p1", "Hi."⟩, ⟨"p2", "Yo."⟩]).get? 1).map SubtitleItem.id =
      some "p2-1" ∧
    ("p2-1" : String) ≠ "p2-0" := by
  decide

/-- Claim C3 (amended): every CaptionUnit built from segmented OCR text has
id `{pageId}-{globalRunningIndex}` where the index is the unit's 0-based
position in the overall caption list of the run (carried across pages, not
restarting per page); the id is generated deterministically. -/
theorem caption_id_global_index (results : List OcrResult) (i : Nat)
    (hi : i < (buildSegmented results).length) :
    ∃ j, ∃ hj : j < results.length, ∃ u : SubtitleItem,
      (buildSegmented results).get? i = some u ∧
      u.pageIndex = j ∧
      u.id = (results.get ⟨j, hj⟩).imageId ++ "-" ++ toString i := by
  obtain ⟨j, hj, k, hk, heq⟩ := buildSegmentedAux_get? results 0 0 i hi
  rw [Nat.zero_add] at heq
  exact ⟨j, hj, _, heq, Nat.zero_add j, rfl⟩

/-- Witness for C3's amended theorem at a one-page run. -/
theorem caption_id_global_index_witness :
    ((buildSegmented [⟨"p1", "Hi."⟩]).get? 0).map SubtitleItem.id = some "p1-0" := by
  obtain ⟨j, hj, u, hget, hpi, hid⟩ :=
    caption_id_global_index [⟨"p1", "Hi."⟩] 0 (by decide)
  have hj1 : j < 1 := by simpa using hj
  have hj0 : j = 0 := by omega
  subst hj0
  rw [hget, Option.map_some']
  exact congrArg some (hid.trans (by rfl))

/-- Claim C5: if every page's OCR text segments to nothing, the Timeline
Builder emits exactly one CaptionUnit per page, in page order, with the
1-based page number in the placeholder text and a fixed 2000 ms duration;
the fallback fires only when the whole run yields zero captions, and a page
whose text segments to nothing contributes no captions of its own. -/
theorem timeline_fallback (images : List UploadedImage) (results : List OcrResult) :
    ((∀ r ∈ results, segmentText r.text = []) →
      (buildTimeline images results).length = images.length ∧
      ∀ i, ∀ h : i < images.length,
        (buildTimeline images results).get? i =
          some { id := (images.get ⟨i, h⟩).id ++ "-fallback",
                 text := "Page " ++ toString (i + 1),
                 durationMs := 2000, pageIndex := i }) ∧
    (buildSegmented results ≠ [] →
      buildTimeline images results = buildSegmented results) ∧
    (∀ j, ∀ hj : j < results.length,
      segmentText ((results.get ⟨j, hj⟩).text) = [] →
      buildSegmented results ≠ [] →
      ∀ u ∈ buildTimeline images results, u.pageIndex ≠ j) := by
  refine ⟨?_, ?_, ?_⟩
  · intro hall
    have hempty : buildSegmented results = [] :=
      buildSegmentedAux_nil_of_all_empty results 0 0 hall
    rw [buildTimeline]
    rw [if_pos hempty]
    constructor
    · exact fallbackUnits_length images 0
    · intro i h
      rw [fallbackUnits_get? images 0 i h]
      simp only [Nat.zero_add]
  · intro hne
    rw [buildTimeline, if_neg hne]
  · intro j hj hseg hne u hu
    rw [buildTimeline, if_neg hne] at hu
    obtain ⟨i, hget⟩ := List.mem_iff_get?.mp hu
    have hi : i < (buildSegmented results).length := by
      by_contra hge
      push_neg at hge
      rw [List.get?_eq_none.mpr hge] at hget
      exact Option.noConfusion hget
    obtain ⟨j', hj', k, hk, heq⟩ := buildSegmentedAux_get? results 0 0 i hi
    unfold buildSegmented at hget
    rw [heq] at hget
    have hu' := Option.some.inj hget
    intro hpij
    have hpi' : u.pageIndex = 0 + j' := by rw [← hu']
    have hjj : j' = j := by omega
    subst hjj
    rw [hseg] at hk
    exact absurd hk (by simp)

/-- Witness for C5 at two pages with empty OCR text. -/
theorem timeline_fallback_witness :
    (buildTimeline [⟨"p1", "a.png"⟩, ⟨"p2", "b.png"⟩]
        [⟨"p1", ""⟩, ⟨"p2", ""⟩]).get? 1 =
      some (⟨"p2-fallback", "Page 2", 2000, 1⟩ : SubtitleItem) := by
  have h := ((timeline_fallback [⟨"p1", "a.png"⟩, ⟨"p2", "b.png"⟩]
      [⟨"p1", ""⟩, ⟨"p2", ""⟩]).1 (by decide)).2 1 (by decide)
  exact h.trans (by decide)

lemma srtLines_cons (t : Int) (idx : Nat) (s : SubtitleItem) (rest : List SubtitleItem) :
    srtLines t idx (s :: rest) =
      toString (idx + 1) ::
      (fmtMs t ++ " --> " ++ fmtMs (t + s.durationMs)) ::
      s.text ::
      "" ::
      srtLines (t + s.durationMs) (idx + 1) rest := rfl

lemma srtLines_length (subs : List SubtitleItem) :
    ∀ (t : Int) (idx : Nat), (srtLines t idx subs).length = 4 * subs.length := by
  induction subs with
  | nil => intro t idx; rfl
  | cons s rest ih =>
    intro t idx
    rw [srtLines_cons, List.length_cons, List.length_cons, List.length_cons,
      List.length_cons, ih, List.length_cons]
    ring

lemma cumStart_zero (subs : List SubtitleItem) : cumStart subs 0 = 0 := rfl

lemma cumStart_succ_cons (s : SubtitleItem) (rest : List SubtitleItem) (i : Nat) :
    cumStart (s :: rest) (i + 1) = s.durationMs + cumStart rest i := by
  rw [cumStart, cumStart, List.take_succ_cons, List.map_cons, List.sum_cons]

lemma get?_cons4 {α : Type} (a b c d : α) (L : List α) (n : Nat) :
    (a :: b :: c :: d :: L).get? (n + 4) = L.get? n := rfl

lemma srtLines_get? (subs : List SubtitleItem) :
    ∀ (t : Int) (idx i : Nat) (h : i < subs.length),
      (srtLines t idx subs).get? (4 * i) = some (toString (idx + i + 1)) ∧
      (srtLines t idx subs).get? (4 * i + 1) =
        some (fmtMs (t + cumStart subs i) ++ " --> " ++
          fmtMs (t + cumStart subs (i + 1))) ∧
      (srtLines t idx subs).get? (4 * i + 2) = some ((subs.get ⟨i, h⟩).text) ∧
      (srtLines t idx subs).get? (4 * i + 3) = some "" := by
  induction subs with
  | nil => intro t idx i h; exact absurd h (by simp)
  | cons s rest ih =>
    intro t idx i h
    match i with
    | 0 =>
      rw [srtLines_cons]
      refine ⟨?_, ?_, rfl, rfl⟩
      · rw [Nat.mul_zero, List.get?_cons_zero, Nat.add_zero]
      · rw [Nat.mul_zero, Nat.zero_add, List.get?_cons_succ, List.get?_cons_zero,
          cumStart_zero]
        have h1 : cumStart (s :: rest) (0 + 1) = s.durationMs := by
          rw [cumStart_succ_cons, cumStart_zero, Int.add_zero]
        rw [h1, Int.add_zero]
    | i + 1 =>
      have h' : i < rest.length := Nat.lt_of_succ_lt_succ h
      have e0 : 4 * (i + 1) = 4 * i + 4 := by ring
      have e1 : 4 * (i + 1) + 1 = 4 * i + 1 + 4 := by ring
      have e2 : 4 * (i + 1) + 2 = 4 * i + 2 + 4 := by ring
      have e3 : 4 * (i + 1) + 3 = 4 * i + 3 + 4 := by ring
      obtain ⟨ih0, ih1, ih2, ih3⟩ := ih (t + s.durationMs) (idx + 1) i h'
      rw [srtLines_cons]
      refine ⟨?_, ?_, ?_, ?_⟩
      · rw [e0, get?_cons4, ih0]
        have : idx + 1 + i + 1 = idx + (i + 1) + 1 := by ring
        rw [this]
      · rw [e1, get?_cons4, ih1]
        have ha : t + s.durationMs + cumStart rest i = t + cumStart (s :: rest) (i + 1) := by
          rw [cumStart_succ_cons]; ring
        have hb : t + s.durationMs + cumStart rest (i + 1) =
            t + cumStart (s :: rest) (i + 1 + 1) := by
          rw [cumStart_succ_cons]; ring
        rw [ha, hb]
      · rw [e2, get?_cons4, ih2]
        rfl
      · rw [e3, get?_cons4, ih3]

/-- Claim C4: `exportSrt` keeps a running cumulative start time from 0
(start = runningTime, end = start + durationMs, runningTime = end) and emits
per caption a 1-based sequence number, a zero-padded timestamp line with
hours never wrapped modulo 24, the caption text and a blank line; on the
spec's two-caption example it produces exactly the expected document, and a
standard SRT reader re-parses it to the same (start, end, text) triples. -/
theorem exportSrt_structure_and_roundtrip :
    (∀ subs : List SubtitleItem,
      (srtLines 0 0 subs).length = 4 * subs.length ∧
      ∀ i, ∀ h : i < subs.length,
        (srtLines 0 0 subs).get? (4 * i) = some (toString (i + 1)) ∧
        (srtLines 0 0 subs).get? (4 * i + 1) =
          some (fmtMs (cumStart subs i) ++ " --> " ++ fmtMs (cumStart subs (i + 1))) ∧
        (srtLines 0 0 subs).get? (4 * i + 2) = some ((subs.get ⟨i, h⟩).text) ∧
        (srtLines 0 0 subs).get? (4 * i + 3) = some "") ∧
    fmtMs 90000000 = "25:00:00,000" ∧
    exportSrt [⟨"s1", "A", 1500, 0⟩, ⟨"s2", "B", 2000, 0⟩] =
      "1\n00:00:00,000 --> 00:00:01,500\nA\n\n2\n00:00:01,500 --> 00:00:03,500\nB\n" ∧
    parseSrt "1\n00:00:00,000 --> 00:00:01,500\nA\n\n2\n00:00:01,500 --> 00:00:03,500\nB\n" =
      some [(0, 1500, "A"), (1500, 3500, "B")] := by
  refine ⟨?_, by decide, by decide, by decide⟩
  intro subs
  refine ⟨srtLines_length subs 0 0, ?_⟩
  intro i h
  obtain ⟨h0, h1, h2, h3⟩ := srtLines_get? subs 0 0 i h
  refine ⟨?_, ?_, h2, h3⟩
  · rw [h0, Nat.zero_add]
  · rw [h1, Int.zero_add, Int.zero_add]

/-- Witness for C4's structural part at a one-caption list. -/
theorem exportSrt_structure_witness :
    (srtLines 0 0 [(⟨"s1", "A", 1500, 0⟩ : SubtitleItem)]).get? 2 = some "A" := by
  have h := (exportSrt_structure_and_roundtrip.1 [⟨"s1", "A", 1500, 0⟩]).2 0 (by decide)
  exact h.2.2.1.trans (by decide)

lemma dropWhile_head_not {α : Type} (p : α → Bool) :
    ∀ (l : List α) (c : α), (l.dropWhile p).head? = some c → p c = false := by
  intro l
  induction l with
  | nil => intro c h; simp [List.dropWhile] at h
  | cons a l ih =>
    intro c h
    rw [List.dropWhile_cons] at h
    by_cases ha : p a = true
    · rw [if_pos ha] at h
      exact ih c h
    · rw [if_neg ha] at h
      rw [List.head?_cons, Option.some.injEq] at h
      rw [← h]
      exact Bool.eq_false_iff.mpr ha

lemma revDropRev_append (m : List Char) :
    ∃ t, (m.reverse.dropWhile isWs).reverse ++ t = m := by
  obtain ⟨t', ht⟩ := List.dropWhile_suffix (l := m.reverse) isWs
  refine ⟨t'.reverse, ?_⟩
  have h := congrArg List.reverse ht
  simpa [List.reverse_append] using h

lemma trimChars_head_not (l : List Char) (c : Char) :
    (trimChars l).head? = some c → isWs c = false := by
  intro hc
  rw [trimChars] at hc
  obtain ⟨t, ht⟩ := revDropRev_append (l.dropWhile isWs)
  have hq : (l.dropWhile isWs).head? = some c := by
    rw [← ht, List.head?_append, hc]
    rfl
  exact dropWhile_head_not isWs l c hq

lemma trimChars_getLast_not (l : List Char) (c : Char) :
    (trimChars l).getLast? = some c → isWs c = false := by
  intro hc
  rw [trimChars, List.getLast?_reverse] at hc
  exact dropWhile_head_not isWs _ c hc

lemma splitScan_join_sublist :
    ∀ (fuel : Nat) (pt : Bool) (acc l : List Char), l.length < fuel →
      (splitScan fuel pt acc l).flatten.Sublist (acc.reverse ++ l) := by
  intro fuel
  induction fuel with
  | zero => intro pt acc l h; exact absurd h (by omega)
  | succ fuel ih =>
    intro pt acc l h
    match l with
    | [] =>
      simp [splitScan]
    | c :: rest =>
      rw [List.length_cons] at h
      simp only [splitScan]
      split_ifs with h1 h2
      · rw [List.flatten_cons]
        apply List.Sublist.append_left
        have hlen : (rest.drop (countLeadingNl rest)).length < fuel := by
          rw [List.length_drop]; omega
        have hrec := ih false [] (rest.drop (countLeadingNl rest)) hlen
        rw [List.reverse_nil, List.nil_append] at hrec
        exact (hrec.trans (List.drop_sublist _ _)).trans (List.sublist_cons_self c rest)
      · rw [List.flatten_cons]
        apply List.Sublist.append_left
        have hlen : (rest.drop (countLeadingWs rest)).length < fuel := by
          rw [List.length_drop]; omega
        have hrec := ih false [] (rest.drop (countLeadingWs rest)) hlen
        rw [List.reverse_nil, List.nil_append] at hrec
        exact (hrec.trans (List.drop_sublist _ _)).trans (List.sublist_cons_self c rest)
      · have hrec := ih (isTerm c) (c :: acc) rest (by omega)
        rw [List.reverse_cons] at hrec
        rw [List.append_assoc, List.singleton_append] at hrec
        exact hrec

lemma trimChars_sublist (p : List Char) : (trimChars p).Sublist p := by
  rw [trimChars]
  have hd : ((p.dropWhile isWs).reverse.dropWhile isWs).Sublist
      (p.dropWhile isWs).reverse := List.dropWhile_sublist isWs
  have h1 := List.reverse_sublist.mpr hd
  rw [List.reverse_reverse] at h1
  exact h1.trans (List.dropWhile_sublist isWs)

lemma join_sublist_of_forall₂ {L₁ L₂ : List (List Char)}
    (h : List.Forall₂ List.Sublist L₁ L₂) : L₁.flatten.Sublist L₂.flatten := by
  induction h with
  | nil => exact List.Sublist.refl _
  | cons h₁ h₂ ih =>
    rw [List.flatten_cons, List.flatten_cons]
    exact h₁.append ih

lemma forall₂_trim_sublist :
    ∀ L : List (List Char), List.Forall₂ List.Sublist (L.map trimChars) L := by
  intro L
  induction L with
  | nil => exact List.Forall₂.nil
  | cons l L ih =>
    rw [List.map_cons]
    exact List.Forall₂.cons (trimChars_sublist l) ih

lemma joined_data_filter :
    ∀ T : List (List Char),
      (((T.map (fun l => String.mk l)).filter (fun s => !(s == ""))).map
        String.data).flatten.Sublist T.flatten := by
  intro T
  induction T with
  | nil => simp
  | cons l T ih =>
    rw [List.map_cons, List.flatten_cons]
    by_cases h : ((String.mk l == "") : Bool) = true
    · rw [List.filter_cons_of_neg (by simp [h])]
      exact ih.trans (List.sublist_append_right l T.flatten)
    · rw [List.filter_cons_of_pos (by simp [h])]
      rw [List.map_cons, List.flatten_cons]
      exact List.Sublist.append_left ih l

/-- Claim C6: the Caption Segmenter strips carriage returns, splits on runs
of two or more newlines or on whitespace following a sentence-terminal
character, trims every piece and discards empty pieces; hence every output
string is non-empty with no leading or trailing whitespace, the output's
characters appear in source order (their concatenation is a subsequence of
the carriage-return-stripped input), and empty input contributes nothing. -/
theorem segmenter_output_trimmed_ordered :
    (∀ t : String, ∀ s ∈ segmentText t,
      s ≠ "" ∧
      (∀ c, s.data.head? = some c → isWs c = false) ∧
      (∀ c, s.data.getLast? = some c → isWs c = false)) ∧
    (∀ t : String,
      ((segmentText t).map String.data).flatten.Sublist
        (t.data.filter (fun c => !(c == '\r')))) ∧
    segmentText "" = [] := by
  refine ⟨?_, ?_, by decide⟩
  · intro t s hs
    rw [segmentText] at hs
    have hmem := List.mem_filter.mp hs
    have hne : s ≠ "" := by
      have := hmem.2
      simpa using this
    obtain ⟨p, hp, hps⟩ := List.mem_map.mp hmem.1
    refine ⟨hne, ?_, ?_⟩
    · intro c hc
      rw [← hps] at hc
      exact trimChars_head_not p c hc
    · intro c hc
      rw [← hps] at hc
      exact trimChars_getLast_not p c hc
  · intro t
    rw [segmentText]
    have hmm : (jsSplit (t.data.filter (fun c => !(c == '\r')))).map
        (fun p => String.mk (trimChars p)) =
        ((jsSplit (t.data.filter (fun c => !(c == '\r')))).map trimChars).map
          (fun l => String.mk l) := by
      rw [List.map_map]
      rfl
    rw [hmm]
    refine (joined_data_filter _).trans ?_
    refine (join_sublist_of_forall₂ (forall₂_trim_sublist _)).trans ?_
    have h := splitScan_join_sublist
      ((t.data.filter (fun c => !(c == '\r'))).length + 1) false []
      (t.data.filter (fun c => !(c == '\r'))) (by omega)
    rw [List.reverse_nil, List.nil_append] at h
    exact h

/-- Witness for C6 at a concrete two-sentence input. -/
theorem segmenter_output_witness :
    ("Hi." : String) ≠ "" :=
  ((segmenter_output_trimmed_ordered.1 "Hi. There" "Hi.") (by decide)).1

example : segmentText "" = [] := by decide
example : segmentText "Hi. There" = ["Hi.", "There"] := by decide
example : segmentText "Line one.\n\nLine two." = ["Line one.", "Line two."] := by decide
example : segmentText "a\nb" = ["a\nb"] := by decide
example : estimateDuration "Yo." = 1500 := by decide
example :
    buildSegmented [⟨"p1", "Hi."⟩, ⟨"p2", "Yo."⟩] =
      [⟨"p1-0", "Hi.", 1500, 0⟩, ⟨"p2-1", "Yo.", 1500, 1⟩] := by decide
example :
    buildTimeline [⟨"p1", "a.png"⟩] [⟨"p1", ""⟩] =
      [⟨"p1-fallback", "Page 1", 2000, 0⟩] := by decide
example : recognizingPercent (2 / 5) = 10 := by
  norm_num [recognizingPercent, jsRound]
example : renderingPercent (1 / 2) = 85 := by
  norm_num [renderingPercent, jsRound]
example : runAgentSteps [4 / 5, 2 / 5] true = [0, 20, 10, 50, 65] := by
  norm_num [runAgentSteps, recognizingPercent, jsRound]
example : fmtMs 1500 = "00:00:01,500" := by decide
example : fmtMs 90000000 = "25:00:00,000" := by decide
example :
    exportSrt [⟨"s1", "A", 1500, 0⟩, ⟨"s2", "B", 2000, 0⟩] =
      "1\n00:00:00,000 --> 00:00:01,500\nA\n\n2\n00:00:01,500 --> 00:00:03,500\nB\n" := by
  decide
example :
    parseSrt "1\n00:00:00,000 --> 00:00:01,500\nA\n\n2\n00:00:01,500 --> 00:00:03,500\nB\n" =
      some [(0, 1500, "A"), (1500, 3500, "B")] := by decide
example :
    (runAgentModel [⟨"p1", "a.png"⟩] [] (Except.error ()) initialState).1.isProcessing =
      true := by decide
